import Mathlib

/-!
Verification development for a minimal schema-validation engine.

The repository consists of didactic scripts using a declarative validation
library.  The schemas, validator hooks, computed-field derivations and the
concrete inputs below are embedded from the scripts under `src/`.  The engine
itself (coercion, error collection, hook dispatch, serialization) is the
library's and is not part of the repository source; following the
specification, those parts are modelled from the spec's §4.2–§4.5 and are
marked `Modelled from the spec:` in their doc comments.

Floating-point numbers are modelled as rationals; every arithmetic fact proved
here is exact at the inputs involved, so no rounding of the binary
representation is being glossed over.
-/

/-- Untyped values: the common carrier for raw input, validated records and
serialized output (strings, ints, floats-as-rationals, booleans, None,
sequences, string-keyed mappings). -/
inductive Value where
  | vStr (s : String)
  | vInt (n : Int)
  | vFloat (q : ℚ)
  | vBool (b : Bool)
  | vNone
  | vList (xs : List Value)
  | vDict (entries : List (String × Value))

/-- A string-keyed mapping, used both for raw input and for validated records. -/
abbrev Dict := List (String × Value)

/-- Violation kinds, the error taxonomy of spec §7. -/
inductive ViolKind where
  | MISSING_FIELD
  | TYPE_MISMATCH
  | OUT_OF_RANGE
  | TOO_LONG
  | BAD_FORMAT
  | HOOK_VIOLATION
  | COMPUTATION_ERROR
  | FILTER_CONFLICT

/-- One entry of a validation error report: field name, kind, message. -/
structure Violation where
  field : String
  kind : ViolKind
  msg : String

/-- Result of a field-level validator hook.  `fault` models an unhandled
exception inside the hook (e.g. a Python `TypeError` from comparing an int
with a string), as opposed to `violation`, which models a deliberately raised
validation error. -/
inductive HookResult where
  | ok (v : Value)
  | violation (m : String)
  | fault (m : String)

/-- Result of a model-level validator hook. -/
inductive MHookResult where
  | ok (r : Dict)
  | violation (m : String)
  | fault (m : String)

/-- Base semantic types of field declarations. -/
inductive BaseType where
  | bStr
  | bInt
  | bFloat
  | bBool

/-- Field types: base types, sequences, string-keyed mappings, single-level
nested schemas (the spec's §1 non-goals exclude deeper composition), and
optionals. -/
inductive FieldType where
  | base (b : BaseType)
  | listOf (b : BaseType)
  | dictOf (b : BaseType)
  | nested (nf : List (String × BaseType))
  | opt (t : FieldType)

/-- Format tags for string constraints. -/
inductive FormatTag where
  | email
  | url

/-- Field Descriptor (spec §3, §4.1): name, declared type, constraints
(numeric bounds, max string length, format tag), optional default, and the
strict-mode flag.  Fields are given positionally in that order. -/
structure FieldDesc where
  name : String
  ftype : FieldType
  gtBound : Option ℚ
  ltBound : Option ℚ
  maxLength : Option Nat
  format : Option FormatTag
  defaultVal : Option Value
  strict : Bool

/-- Schema (spec §3, §4.2): ordered field descriptors, per-field hooks keyed
by field name and phase, model-level hooks, and computed-field definitions. -/
structure Schema where
  fields : List FieldDesc
  beforeHooks : String → List (Value → HookResult)
  afterHooks : String → List (Value → HookResult)
  modelHooks : List (Dict → MHookResult)
  computed : List (String × (Dict → Option Value))

/-- First-match lookup in a string-keyed association list. -/
def lookupD : Dict → String → Option Value
  | [], _ => none
  | (k, v) :: rest, n => if k = n then some v else lookupD rest n

/-- Option-valued traversal of a list, failing if any element fails. -/
def mapOpt {α β : Type} (f : α → Option β) : List α → Option (List β)
  | [] => some []
  | x :: xs =>
    match f x, mapOpt f xs with
    | some y, some ys => some (y :: ys)
    | _, _ => none

/-- Split a character list at every occurrence of a separator character. -/
def splitChar (c : Char) : List Char → List (List Char)
  | [] => [[]]
  | x :: xs =>
    match splitChar c xs with
    | [] => [[]]
    | h :: t => if x = c then [] :: h :: t else (x :: h) :: t

/-- Parse a nonempty all-digit character list as a natural number. -/
def parseNatChars (cs : List Char) : Option Nat :=
  if cs.isEmpty then none
  else if cs.all Char.isDigit then
    some (cs.foldl (fun n c => n * 10 + (c.toNat - 48)) 0)
  else none

/-- Parse an optionally negated digit string as an integer. -/
def parseIntChars : List Char → Option Int
  | '-' :: rest => (parseNatChars rest).map (fun n => -(n : Int))
  | cs => (parseNatChars cs).map (fun n => (n : Int))

/-- Parse a decimal numeral (with at most one point) as a rational. -/
def parseFloatChars (cs : List Char) : Option ℚ :=
  match splitChar '.' cs with
  | [a] => (parseIntChars a).map (fun n => (n : ℚ))
  | [a, b] =>
    match parseIntChars a, parseNatChars b with
    | some n, some f =>
      let mag : ℚ := (n.natAbs : ℚ) + (f : ℚ) / ((10 : ℚ) ^ b.length)
      some (if a.head? = some '-' then -mag else mag)
    | _, _ => none
  | _ => none

/-- Modelled from the spec: the "email" format tag — a local part and a
domain separated by one `@`, the domain containing a dot. -/
def isEmailChars (cs : List Char) : Bool :=
  match splitChar '@' cs with
  | [a, b] => !a.isEmpty && !b.isEmpty && b.contains '.'
  | _ => false

/-- Modelled from the spec: the "url" format tag — a scheme-qualified string. -/
def isUrlChars (cs : List Char) : Bool :=
  "http://".data.isPrefixOf cs || "https://".data.isPrefixOf cs

/-- Modelled from the spec (§4.3 step 3): coercion into a base type.  Exact
matches are always accepted; with strict mode off, numeric-looking strings
coerce to numbers, ints widen to floats, and the ints 0/1 coerce to booleans
(the boolean case is not listed in spec §4.3 but is relied on by the script
`src/2_Pydantic.py`, which supplies `married: 1` for a boolean field).  With
strict mode on, any non-exact match is rejected, as spec §4.3 requires. -/
def coerceBase (strict : Bool) (b : BaseType) (v : Value) : Option Value :=
  match b, v with
  | .bStr, .vStr s => some (.vStr s)
  | .bInt, .vInt n => some (.vInt n)
  | .bInt, .vStr s => if strict then none else (parseIntChars s.data).map Value.vInt
  | .bFloat, .vFloat q => some (.vFloat q)
  | .bFloat, .vInt n => if strict then none else some (.vFloat (n : ℚ))
  | .bFloat, .vStr s => if strict then none else (parseFloatChars s.data).map Value.vFloat
  | .bBool, .vBool bb => some (.vBool bb)
  | .bBool, .vInt 0 => if strict then none else some (.vBool false)
  | .bBool, .vInt 1 => if strict then none else some (.vBool true)
  | _, _ => none

/-- Modelled from the spec (§4.3 step 3): coercion into a field type.
Sequences and mappings must already have the correct shape, with elements
coerced recursively; nested schemas are rebuilt field by field in the nested
schema's declaration order. -/
def coerce (strict : Bool) : FieldType → Value → Option Value
  | .base b, v => coerceBase strict b v
  | .listOf b, .vList xs => (mapOpt (coerceBase strict b) xs).map Value.vList
  | .listOf _, _ => none
  | .dictOf b, .vDict es =>
    (mapOpt (fun e => (coerceBase strict b e.2).map (fun w => (e.1, w))) es).map Value.vDict
  | .dictOf _, _ => none
  | .nested nf, .vDict es =>
    (mapOpt (fun p => ((lookupD es p.1).bind (coerceBase strict p.2)).map
      (fun w => (p.1, w))) nf).map Value.vDict
  | .nested _, _ => none
  | .opt _, .vNone => some .vNone
  | .opt t, v => coerce strict t v

/-- Numeric view of a value, used by bound constraints. -/
def toRat? : Value → Option ℚ
  | .vInt n => some (n : ℚ)
  | .vFloat q => some q
  | _ => none

/-- Modelled from the spec (§4.3 step 4): strict lower bound check. -/
def checkGt : Option ℚ → String → Value → List Violation
  | none, _, _ => []
  | some b, n, v =>
    match toRat? v with
    | some q => if b < q then [] else [⟨n, .OUT_OF_RANGE, "value must be greater than bound"⟩]
    | none => []

/-- Modelled from the spec (§4.3 step 4): strict upper bound check. -/
def checkLt : Option ℚ → String → Value → List Violation
  | none, _, _ => []
  | some b, n, v =>
    match toRat? v with
    | some q => if q < b then [] else [⟨n, .OUT_OF_RANGE, "value must be less than bound"⟩]
    | none => []

/-- Modelled from the spec (§4.3 step 4): maximum string length check. -/
def checkLen : Option Nat → String → Value → List Violation
  | none, _, _ => []
  | some m, n, .vStr s => if s.length ≤ m then [] else [⟨n, .TOO_LONG, "string exceeds maximum length"⟩]
  | some _, _, _ => []

/-- Modelled from the spec (§4.3 step 4): string format check. -/
def checkFmt : Option FormatTag → String → Value → List Violation
  | none, _, _ => []
  | some .email, n, .vStr s => if isEmailChars s.data then [] else [⟨n, .BAD_FORMAT, "not a valid email"⟩]
  | some .url, n, .vStr s => if isUrlChars s.data then [] else [⟨n, .BAD_FORMAT, "not a valid url"⟩]
  | some _, n, _ => [⟨n, .BAD_FORMAT, "format applies to strings"⟩]

/-- Modelled from the spec (§4.3 step 4): all declared constraints of a field
applied to the coerced value, violations collected in a fixed order. -/
def checkConstraints (fd : FieldDesc) (v : Value) : List Violation :=
  checkGt fd.gtBound fd.name v ++ checkLt fd.ltBound fd.name v ++
    checkLen fd.maxLength fd.name v ++ checkFmt fd.format fd.name v

/-- Modelled from the spec (§4.3 steps 2 and 5): run a list of hooks in
registration order, each receiving the previous hook's value.  A violation
stops the chain with an inner error; a fault propagates as an outer error. -/
def runHooks : List (Value → HookResult) → Value → Except String (Except String Value)
  | [], v => .ok (.ok v)
  | h :: hs, v =>
    match h v with
    | .ok w => runHooks hs w
    | .violation m => .ok (.error m)
    | .fault m => .error m

/-- Modelled from the spec (§4.3 steps 1–5): process one field of the raw
input — default lookup, before hooks, coercion, constraints, after hooks.
The outer `Except String` is an unhandled fault escaping a hook; the inner
error is the field's collected violations. -/
def processField (s : Schema) (fd : FieldDesc) (raw : Dict) :
    Except String (Except (List Violation) (String × Value)) :=
  match lookupD raw fd.name with
  | none =>
    match fd.defaultVal with
    | some d => .ok (.ok (fd.name, d))
    | none => .ok (.error [⟨fd.name, .MISSING_FIELD, "missing required field"⟩])
  | some rv =>
    match runHooks (s.beforeHooks fd.name) rv with
    | .error m => .error m
    | .ok (.error m) => .ok (.error [⟨fd.name, .HOOK_VIOLATION, m⟩])
    | .ok (.ok rv2) =>
      match coerce fd.strict fd.ftype rv2 with
      | none => .ok (.error [⟨fd.name, .TYPE_MISMATCH, "type mismatch"⟩])
      | some cv =>
        match checkConstraints fd cv with
        | [] =>
          match runHooks (s.afterHooks fd.name) cv with
          | .error m => .error m
          | .ok (.error m) => .ok (.error [⟨fd.name, .HOOK_VIOLATION, m⟩])
          | .ok (.ok fv) => .ok (.ok (fd.name, fv))
        | w :: ws => .ok (.error (w :: ws))

/-- Modelled from the spec (§4.3): process every field in declaration order,
collecting all violations (error collection, not fail-fast) and the
successfully validated entries. -/
def validateFields (s : Schema) : List FieldDesc → Dict → Except String (List Violation × Dict)
  | [], _ => .ok ([], [])
  | fd :: rest, raw =>
    match processField s fd raw with
    | .error m => .error m
    | .ok (.ok e) =>
      match validateFields s rest raw with
      | .error m => .error m
      | .ok (vs, es) => .ok (vs, e :: es)
    | .ok (.error vs0) =>
      match validateFields s rest raw with
      | .error m => .error m
      | .ok (vs, es) => .ok (vs0 ++ vs, es)

/-- Modelled from the spec (§4.3): run model-level hooks in registration
order on the assembled candidate record, collecting hook violations. -/
def runModelHooks : List (Dict → MHookResult) → Dict → List Violation →
    Except String (Except (List Violation) Dict)
  | [], r, acc =>
    match acc with
    | [] => .ok (.ok r)
    | v :: vs => .ok (.error (v :: vs))
  | h :: hs, r, acc =>
    match h r with
    | .ok r2 => runModelHooks hs r2 acc
    | .violation m => runModelHooks hs r (acc ++ [⟨"__model__", .HOOK_VIOLATION, m⟩])
    | .fault m => .error m

/-- Modelled from the spec (§4.3, §6): `Schema.validate`.  Returns either a
fully valid record or the complete list of violations; the outer
`Except String` carries an unhandled fault escaping a custom hook. -/
def validate (s : Schema) (raw : Dict) : Except String (Except (List Violation) Dict) :=
  match validateFields s s.fields raw with
  | .error m => .error m
  | .ok ([], es) => runModelHooks s.modelHooks es []
  | .ok (v :: vs, _) => .ok (.error (v :: vs))

/-- Modelled from the spec (§4.4): evaluate the computed-field derivations in
order; a failed derivation (e.g. division by zero) yields a
`COMPUTATION_ERROR` instead of propagating an arithmetic fault. -/
def resolveComputed : List (String × (Dict → Option Value)) → Dict →
    Except Violation (List (String × Value))
  | [], _ => .ok []
  | (n, f) :: rest, r =>
    match f r with
    | none => .error ⟨n, .COMPUTATION_ERROR, "computed field derivation failed"⟩
    | some v =>
      match resolveComputed rest r with
      | .error e => .error e
      | .ok vs => .ok ((n, v) :: vs)

/-- Modelled from the spec (§4.4): the Computed Field Resolver. -/
def resolve (s : Schema) (r : Dict) : Except Violation (List (String × Value)) :=
  resolveComputed s.computed r

/-- Serializer filters: exclude a whole field, or named sub-fields of a
nested field. -/
inductive DumpFilter where
  | whole (n : String)
  | sub (n : String) (subs : List String)

/-- Whether an exclusion list removes a field entirely. -/
def excludesWhole (ex : List DumpFilter) (n : String) : Bool :=
  ex.any fun f =>
    match f with
    | .whole m => m == n
    | .sub _ _ => false

/-- Sub-field names excluded under a given field by an exclusion list. -/
def subExcluded (ex : List DumpFilter) (n : String) : List String :=
  ex.foldl (fun acc f =>
    match f with
    | .sub m subs => if m == n then acc ++ subs else acc
    | .whole _ => acc) []

/-- Remove excluded sub-fields from a nested (dictionary) value. -/
def applySubExclude (subs : List String) : Value → Value
  | .vDict es => .vDict (es.filter (fun e => !(subs.contains e.1)))
  | v => v

/-- Modelled from the spec (§4.5): the Serializer.  Giving both an include
and an exclude set is a caller error rejected with `FILTER_CONFLICT` before
any field is processed; by default all stored fields plus all computed fields
are emitted; exclusion supports nested sub-paths. -/
def model_dump (s : Schema) (r : Dict) (incl : Option (List String))
    (excl : Option (List DumpFilter)) : Except ViolKind Value :=
  match incl, excl with
  | some _, some _ => .error .FILTER_CONFLICT
  | _, _ =>
    match resolve s r with
    | .error e => .error e.kind
    | .ok comp =>
      match incl with
      | some names => .ok (.vDict ((r ++ comp).filter (fun e => names.contains e.1)))
      | none =>
        match excl with
        | some ex =>
          .ok (.vDict (((r ++ comp).filter (fun e => !(excludesWhole ex e.1))).map
            (fun e => (e.1, applySubExclude (subExcluded ex e.1) e.2))))
        | none => .ok (.vDict (r ++ comp))

/-- Embedded from src/3_field_validator.py: the `email_validator` hook on
`email` (mode "after").  It raises on domains outside the allow-list and
otherwise falls off the end of the function, implicitly returning `None` —
faithfully modelled by `.ok .vNone`.  On a non-string it would fault. -/
def email_validator (v : Value) : HookResult :=
  match v with
  | .vStr s =>
    match (splitChar '@' s.data).getLast? with
    | some domain =>
      if ["hdfc.com".data, "icici.com".data].contains domain then .ok .vNone
      else .violation "Not a valid domain"
    | none => .fault "IndexError"
  | _ => .fault "AttributeError"

/-- Embedded from src/3_field_validator.py: the `transform_name` hook on
`name` (mode "after"), upper-casing the value. -/
def transform_name (v : Value) : HookResult :=
  match v with
  | .vStr s => .ok (.vStr (String.mk (s.data.map Char.toUpper)))
  | _ => .fault "AttributeError"

/-- Embedded from src/3_field_validator.py: the `validate_age` hook on `age`
(mode "before", so it receives the raw value).  The chained comparison
`0 < value < 100` succeeds on ints, floats and booleans (a Python bool is an
int); on any other raw value it raises an unhandled `TypeError`, modelled as
a fault. -/
def validate_age (v : Value) : HookResult :=
  match v with
  | .vInt n => if 0 < n ∧ n < 100 then .ok (.vInt n) else .violation "Value is not valid"
  | .vFloat q => if 0 < q ∧ q < 100 then .ok (.vFloat q) else .violation "Value is not valid"
  | .vBool b =>
    if 0 < (if b then 1 else 0 : Int) ∧ (if b then 1 else 0 : Int) < 100 then .ok (.vBool b)
    else .violation "Value is not valid"
  | _ => .fault "TypeError: < not supported between int and this type"

/-- Embedded from src/3_model_validator.py: the model-level "after" hook
`validate_emergency_contact` — a patient over 60 must have an "emergency"
key in `contact_details`. -/
def validate_emergency_contact (r : Dict) : MHookResult :=
  match lookupD r "age" with
  | some (.vInt n) =>
    if 60 < n then
      match lookupD r "contact_details" with
      | some (.vDict es) =>
        if (es.map Prod.fst).contains "emergency" then .ok r
        else .violation "Patients older than 60 must have emergency contact"
      | _ => .fault "TypeError"
    else .ok r
  | _ => .fault "AttributeError"

/-- Embedded from src/4_computed_fields.py: the `bmi` computed-field
derivation, `round(self.weight/self.height, 2)`.  A zero height makes the
division fail (the resolver reports it as a `COMPUTATION_ERROR`).  Note the
source divides by the height, not by its square. -/
def bmiDeriv (r : Dict) : Option Value :=
  match lookupD r "weight", lookupD r "height" with
  | some (.vFloat w), some (.vFloat h) =>
    if h = 0 then none else some (.vFloat ((round (w / h * 100) : ℤ) / 100))
  | _, _ => none

/-- Embedded from src/2_Pydantic.py: `name` with max_length 50. -/
def nameF2 : FieldDesc := ⟨"name", .base .bStr, none, none, some 50, none, none, false⟩

/-- Embedded from src/2_Pydantic.py: `email` as EmailStr. -/
def emailF2 : FieldDesc := ⟨"email", .base .bStr, none, none, none, some .email, none, false⟩

/-- Embedded from src/2_Pydantic.py: `linkedin_url` as AnyUrl. -/
def linkedinF2 : FieldDesc := ⟨"linkedin_url", .base .bStr, none, none, none, some .url, none, false⟩

/-- Embedded from src/2_Pydantic.py: `age` with gt=0 and lt=120. -/
def ageF2 : FieldDesc := ⟨"age", .base .bInt, some 0, some 120, none, none, none, false⟩

/-- Embedded from src/2_Pydantic.py: `weight` as a float with gt=0 and
strict=True, the "Stop type coersion" field. -/
def weightF2 : FieldDesc := ⟨"weight", .base .bFloat, some 0, none, none, none, none, true⟩

/-- Embedded from src/2_Pydantic.py: `married` as a bool defaulting to None. -/
def marriedF2 : FieldDesc := ⟨"married", .base .bBool, none, none, none, none, some .vNone, false⟩

/-- Embedded from src/2_Pydantic.py: `allergies` as an optional string list
defaulting to None. -/
def allergiesF2 : FieldDesc := ⟨"allergies", .opt (.listOf .bStr), none, none, none, none, some .vNone, false⟩

/-- Embedded from src/2_Pydantic.py: `contact_details` as a str-to-str dict. -/
def contactF2 : FieldDesc := ⟨"contact_details", .dictOf .bStr, none, none, none, none, none, false⟩

/-- Embedded from src/2_Pydantic.py: the `Patient` schema.  No custom hooks. -/
def Patient2 : Schema :=
  ⟨[nameF2, emailF2, linkedinF2, ageF2, weightF2, marriedF2, allergiesF2, contactF2],
   fun _ => [], fun _ => [], [], []⟩

/-- Embedded from src/3_field_validator.py: plain `name` field. -/
def nameF3 : FieldDesc := ⟨"name", .base .bStr, none, none, none, none, none, false⟩

/-- Embedded from src/3_field_validator.py: `email` as EmailStr. -/
def emailF3 : FieldDesc := ⟨"email", .base .bStr, none, none, none, some .email, none, false⟩

/-- Embedded from src/3_field_validator.py: plain `age` field. -/
def ageF3 : FieldDesc := ⟨"age", .base .bInt, none, none, none, none, none, false⟩

/-- Embedded from src/3_field_validator.py: plain `weight` field. -/
def weightF3 : FieldDesc := ⟨"weight", .base .bFloat, none, none, none, none, none, false⟩

/-- Embedded from src/3_field_validator.py: plain `married` field. -/
def marriedF3 : FieldDesc := ⟨"married", .base .bBool, none, none, none, none, none, false⟩

/-- Embedded from src/3_field_validator.py: `allergies` string list. -/
def allergiesF3 : FieldDesc := ⟨"allergies", .listOf .bStr, none, none, none, none, none, false⟩

/-- Embedded from src/3_field_validator.py: `contact_details` dict. -/
def contactF3 : FieldDesc := ⟨"contact_details", .dictOf .bStr, none, none, none, none, none, false⟩

/-- Embedded from src/3_field_validator.py: the `Patient` schema — plain
typed fields, `email` as EmailStr, with the three field-level hooks
registered on email (after), name (after) and age (before). -/
def Patient3 : Schema :=
  ⟨[nameF3, emailF3, ageF3, weightF3, marriedF3, allergiesF3, contactF3],
   fun n => if n = "age" then [validate_age] else [],
   fun n => if n = "email" then [email_validator]
            else if n = "name" then [transform_name] else [],
   [], []⟩

/-- Embedded from src/3_model_validator.py: the `Patient` schema — same
stored fields as Patient3, no field-level hooks, and the
`validate_emergency_contact` model-level hook. -/
def Patient3m : Schema :=
  ⟨[⟨"name", .base .bStr, none, none, none, none, none, false⟩,
    ⟨"email", .base .bStr, none, none, none, some .email, none, false⟩,
    ⟨"age", .base .bInt, none, none, none, none, none, false⟩,
    ⟨"weight", .base .bFloat, none, none, none, none, none, false⟩,
    ⟨"married", .base .bBool, none, none, none, none, none, false⟩,
    ⟨"allergies", .listOf .bStr, none, none, none, none, none, false⟩,
    ⟨"contact_details", .dictOf .bStr, none, none, none, none, none, false⟩],
   fun _ => [], fun _ => [], [validate_emergency_contact], []⟩

/-- Embedded from src/4_computed_fields.py: the `Patient` schema — stored
fields including `height`, plus the `bmi` computed field. -/
def Patient4 : Schema :=
  ⟨[⟨"name", .base .bStr, none, none, none, none, none, false⟩,
    ⟨"email", .base .bStr, none, none, none, some .email, none, false⟩,
    ⟨"age", .base .bInt, none, none, none, none, none, false⟩,
    ⟨"weight", .base .bFloat, none, none, none, none, none, false⟩,
    ⟨"height", .base .bFloat, none, none, none, none, none, false⟩,
    ⟨"married", .base .bBool, none, none, none, none, none, false⟩,
    ⟨"allergies", .listOf .bStr, none, none, none, none, none, false⟩,
    ⟨"contact_details", .dictOf .bStr, none, none, none, none, none, false⟩],
   fun _ => [], fun _ => [], [], [("bmi", bmiDeriv)]⟩

/-- Embedded from src/6_serialization.py: the `Address` nested schema. -/
def addressFields : List (String × BaseType) :=
  [("city", .bStr), ("state", .bStr), ("pin", .bStr)]

/-- Embedded from src/6_serialization.py: the `Patient` schema with the
nested `Address` field.  No constraints, hooks or computed fields. -/
def Patient6 : Schema :=
  ⟨[⟨"name", .base .bStr, none, none, none, none, none, false⟩,
    ⟨"gender", .base .bStr, none, none, none, none, none, false⟩,
    ⟨"age", .base .bInt, none, none, none, none, none, false⟩,
    ⟨"address", .nested addressFields, none, none, none, none, none, false⟩],
   fun _ => [], fun _ => [], [], []⟩

/-- Embedded from src/6_serialization.py: the raw `patient_dict` input (with
the address given as plain data, as `model_dump` of `address1` yields). -/
def patientDict6 : Dict :=
  [("name", .vStr "Arshnoor"), ("gender", .vStr "male"), ("age", .vInt 26),
   ("address", .vDict [("city", .vStr "gurgaon"), ("state", .vStr "Punjab"),
                       ("pin", .vStr "1234")])]

/-- Raw input for the computed-field schema with weight 70 kg and height
1.75 m (the spec's §8 example values). -/
def in4 : Dict :=
  [("name", .vStr "Arshnoor"), ("email", .vStr "arsh@gmail.com"), ("age", .vInt 24),
   ("weight", .vFloat 70), ("height", .vFloat (7/4)), ("married", .vBool false),
   ("allergies", .vList [.vStr "pollen", .vStr "dust"]),
   ("contact_details", .vDict [("phone", .vStr "987")])]

/-- Same record but with height 0. -/
def in4z : Dict :=
  [("name", .vStr "Arshnoor"), ("email", .vStr "arsh@gmail.com"), ("age", .vInt 24),
   ("weight", .vFloat 70), ("height", .vFloat 0), ("married", .vBool false),
   ("allergies", .vList [.vStr "pollen", .vStr "dust"]),
   ("contact_details", .vDict [("phone", .vStr "987")])]

/-- C1: for the validated record with weight=70 and height=1.75, the `bmi`
computed field as written in src/4_computed_fields.py (round(weight/height, 2),
dividing by the height, not its square) resolves to 40.0, not to the 22.86
the claim states (22.86 = round(70/1.75^2, 2), the actual BMI formula).  This
theorem evaluates the embedded source derivation at the claim's own input and
shows the divergence. -/
theorem c1_bmi_formula_slip :
    validate Patient4 in4 = .ok (.ok in4) ∧
    resolve Patient4 in4 = .ok [("bmi", .vFloat 40)] ∧ (40 : ℚ) ≠ 1143/50 := by
  refine ⟨rfl, ?_, by norm_num⟩
  have h1 : (70 : ℚ) / (7/4) * 100 = ((4000 : ℤ) : ℚ) := by norm_num
  have h2 : round ((70 : ℚ) / (7/4) * 100) = 4000 := by rw [h1, round_intCast]
  simp [resolve, resolveComputed, Patient4, bmiDeriv, lookupD, h2]
  norm_num

/-- C2: resolving the `bmi` computed field on a validated record whose
stored height is 0 yields a `COMPUTATION_ERROR` result from the resolver,
not an unhandled arithmetic fault. -/
theorem c2_bmi_zero_height_computation_error :
    validate Patient4 in4z = .ok (.ok in4z) ∧
    resolve Patient4 in4z =
      .error ⟨"bmi", .COMPUTATION_ERROR, "computed field derivation failed"⟩ := by
  refine ⟨rfl, ?_⟩
  simp [resolve, resolveComputed, Patient4, bmiDeriv, lookupD]

/-- C3 counterexample: validating a raw input that supplies the non-numeric
string "twenty" for `age` against the Patient schema of
src/3_field_validator.py does not return a record or a violation report —
the "before" hook `validate_age` compares the raw value with an int, which
faults, and the fault propagates out of the validation pass unhandled. -/
theorem c3_nonnumeric_age_fault :
    validate Patient3 [("age", .vStr "twenty")] =
      .error "TypeError: < not supported between int and this type" := rfl

/-- A fully valid raw input for the Patient schema of
src/3_field_validator.py, with an email on the accepted domain allow-list. -/
def cgood : Dict :=
  [("name", .vStr "Arshnoor"), ("email", .vStr "arsh@hdfc.com"), ("age", .vInt 30),
   ("weight", .vFloat 70), ("married", .vBool false), ("allergies", .vList [.vStr "dust"]),
   ("contact_details", .vDict [("phone", .vStr "123")])]

/-- The record that validation of `cgood` actually constructs: the name is
upper-cased by `transform_name`, and the email slot holds None because
`email_validator` never returns the value. -/
def rec3good : Dict :=
  [("name", .vStr "ARSHNOOR"), ("email", .vNone), ("age", .vInt 30),
   ("weight", .vFloat 70), ("married", .vBool false), ("allergies", .vList [.vStr "dust"]),
   ("contact_details", .vDict [("phone", .vStr "123")])]

/-- C4: validating a raw input whose email is on the accepted allow-list
succeeds, but the constructed record's `email` field holds None, not an
email-format string — the `email_validator` hook in src/3_field_validator.py
raises on bad domains yet implicitly returns None on good ones, so the
"after" phase replaces the validated string with None.  This evaluates the
code at the failing input. -/
theorem c4_email_hook_returns_none :
    validate Patient3 cgood = .ok (.ok rec3good) ∧
    lookupD rec3good "email" = some .vNone := ⟨rfl, rfl⟩

/-- Candidate with age 65 and no "emergency" contact key. -/
def inOld : Dict :=
  [("name", .vStr "Arshnoor"), ("email", .vStr "arsh@gmail.com"), ("age", .vInt 65),
   ("weight", .vFloat 70), ("married", .vBool true), ("allergies", .vList []),
   ("contact_details", .vDict [("phone", .vStr "123")])]

/-- Candidate with age 65 and an "emergency" contact key. -/
def inOk : Dict :=
  [("name", .vStr "Arshnoor"), ("email", .vStr "arsh@gmail.com"), ("age", .vInt 65),
   ("weight", .vFloat 70), ("married", .vBool true), ("allergies", .vList []),
   ("contact_details", .vDict [("phone", .vStr "123"), ("emergency", .vStr "911")])]

/-- C5: the model-level "after" hook of src/3_model_validator.py rejects the
candidate with age=65 and contact_details holding only "phone" with a
hook violation (constructing no record), and accepts the candidate whose
contact_details also holds "emergency". -/
theorem c5_emergency_contact_rule :
    validate Patient3m inOld =
      .ok (.error [⟨"__model__", .HOOK_VIOLATION,
        "Patients older than 60 must have emergency contact"⟩]) ∧
    validate Patient3m inOk = .ok (.ok inOk) := ⟨rfl, rfl⟩

/-- C8: serializing the record built from src/6_serialization.py's
`patient_dict` with the filter excluding only `address.state` yields an
address entry holding exactly city and pin, and every other field of the
record unchanged. -/
theorem c8_nested_exclusion :
    validate Patient6 patientDict6 = .ok (.ok patientDict6) ∧
    model_dump Patient6 patientDict6 none (some [.sub "address" ["state"]]) =
      .ok (.vDict [("name", .vStr "Arshnoor"), ("gender", .vStr "male"), ("age", .vInt 26),
        ("address", .vDict [("city", .vStr "gurgaon"), ("pin", .vStr "1234")])]) :=
  ⟨rfl, rfl⟩

/-- C9: calling the serializer with both an include set and an exclude set is
rejected with `FILTER_CONFLICT` before any field is processed — for every
record and every pair of filter sets, no output besides the error is
produced. -/
theorem c9_filter_conflict :
    ∀ (r : Dict) (i : List String) (e : List DumpFilter),
      model_dump Patient6 r (some i) (some e) = .error .FILTER_CONFLICT :=
  fun _ _ _ => rfl

/-- Raw input supplying the integer 1 for the boolean field `married`
(values from src/2_Pydantic.py's `patient_info`, completed with the
`linkedin_url` the schema requires and the declared float for `weight`). -/
def in10 : Dict :=
  [("name", .vStr "Arshnoor"), ("email", .vStr "arsh@gmail.com"),
   ("linkedin_url", .vStr "https://linkedin.com/in/arshnoor"), ("age", .vInt 24),
   ("weight", .vFloat 70), ("married", .vInt 1),
   ("allergies", .vList [.vStr "pollen", .vStr "dust"]),
   ("contact_details", .vDict [("email", .vStr "arshnoorsingh@gmail.com"),
                               ("phone", .vStr "98765432123")])]

/-- The record validation of `in10` constructs: married coerced to True. -/
def rec10 : Dict :=
  [("name", .vStr "Arshnoor"), ("email", .vStr "arsh@gmail.com"),
   ("linkedin_url", .vStr "https://linkedin.com/in/arshnoor"), ("age", .vInt 24),
   ("weight", .vFloat 70), ("married", .vBool true),
   ("allergies", .vList [.vStr "pollen", .vStr "dust"]),
   ("contact_details", .vDict [("email", .vStr "arshnoorsingh@gmail.com"),
                               ("phone", .vStr "98765432123")])]

/-- C10: validating a raw input that supplies the integer 1 for the boolean
field `married` (strict mode unset) succeeds, and the constructed record
stores the boolean True for married. -/
theorem c10_int_to_bool_coercion :
    validate Patient2 in10 = .ok (.ok rec10) ∧
    lookupD rec10 "married" = some (.vBool true) := ⟨rfl, rfl⟩

/-- A field whose processing ends in violations reports at least one. -/
theorem processField_error_ne_nil {s : Schema} {fd : FieldDesc} {raw : Dict}
    {vs : List Violation} (h : processField s fd raw = .ok (.error vs)) : vs ≠ [] := by
  intro hnil
  subst hnil
  unfold processField at h
  split at h
  · split at h <;> simp_all
  · split at h <;> try simp_all
    split at h <;> try simp_all
    split at h <;> try simp_all
    split at h <;> simp_all

/-- A field with no registered hooks can never fault. -/
theorem processField_nohook_nofault {s : Schema} {fd : FieldDesc} {raw : Dict}
    (hb : s.beforeHooks fd.name = []) (ha : s.afterHooks fd.name = []) :
    ∀ m, processField s fd raw ≠ .error m := by
  intro m h
  unfold processField at h
  split at h
  · split at h <;> simp_all
  · rw [hb, ha] at h
    simp only [runHooks] at h
    split at h <;> try simp_all
    split at h <;> simp_all

/-- The field pass never faults when no individual field faults. -/
theorem validateFields_nofault {s : Schema} {raw : Dict} :
    ∀ {fds : List FieldDesc},
      (∀ fd ∈ fds, ∀ m, processField s fd raw ≠ .error m) →
      ∀ m, validateFields s fds raw ≠ .error m := by
  intro fds
  induction fds with
  | nil => intro _ m h; simp [validateFields] at h
  | cons fd rest ih =>
    intro hall m h
    unfold validateFields at h
    split at h
    · exact hall fd (by simp) _ (by assumption)
    · split at h
      · exact ih (fun g hg => hall g (by simp [hg])) _ (by assumption)
      · simp_all
    · split at h
      · exact ih (fun g hg => hall g (by simp [hg])) _ (by assumption)
      · simp_all

/-- Violations reported for one field appear in the collected report. -/
theorem validateFields_mem {s : Schema} {raw : Dict} {fd : FieldDesc}
    {vs0 : List Violation} (hpf : processField s fd raw = .ok (.error vs0)) :
    ∀ {fds : List FieldDesc} {vs : List Violation} {es : Dict},
      fd ∈ fds → validateFields s fds raw = .ok (vs, es) →
      ∀ x ∈ vs0, x ∈ vs := by
  intro fds
  induction fds with
  | nil => intro vs es hmem; simp at hmem
  | cons g rest ih =>
    intro vs es hmem h x hx
    unfold validateFields at h
    cases hg : processField s g raw with
    | error m => rw [hg] at h; simp at h
    | ok inner =>
      rw [hg] at h
      cases inner with
      | ok e =>
        cases hrest : validateFields s rest raw with
        | error m => rw [hrest] at h; simp at h
        | ok p =>
          obtain ⟨vs1, es1⟩ := p
          rw [hrest] at h
          simp only [Except.ok.injEq, Prod.mk.injEq] at h
          rcases List.mem_cons.mp hmem with heq | hmem2
          · subst heq; rw [hpf] at hg; simp at hg
          · exact h.1 ▸ ih hmem2 hrest x hx
      | error vs1 =>
        cases hrest : validateFields s rest raw with
        | error m => rw [hrest] at h; simp at h
        | ok p =>
          obtain ⟨vs2, es2⟩ := p
          rw [hrest] at h
          simp only [Except.ok.injEq, Prod.mk.injEq] at h
          rcases List.mem_cons.mp hmem with heq | hmem2
          · subst heq
            rw [hg] at hpf
            simp only [Except.ok.injEq, Except.error.injEq] at hpf
            subst hpf
            exact h.1 ▸ List.mem_append_left _ hx
          · exact h.1 ▸ List.mem_append_right _ (ih hmem2 hrest x hx)

/-- Whether a value is exactly a float. -/
def isFloatV : Value → Bool
  | .vFloat _ => true
  | _ => false

/-- Under the strict float descriptor of the weight field, any supplied
non-float raw value yields exactly the type-mismatch violation. -/
theorem pf_weight2 {raw : Dict} {v : Value} (hl : lookupD raw "weight" = some v)
    (hv : isFloatV v = false) :
    processField Patient2 weightF2 raw =
      .ok (.error [⟨"weight", .TYPE_MISMATCH, "type mismatch"⟩]) := by
  unfold processField
  have hn : weightF2.name = "weight" := rfl
  rw [hn, hl]
  have hb : Patient2.beforeHooks "weight" = [] := rfl
  rw [hb]
  simp only [runHooks]
  have hc : coerce weightF2.strict weightF2.ftype v = none := by
    cases v <;> simp_all [coerce, coerceBase, isFloatV, weightF2]
  rw [hc]

/-- C6: for the strict-mode weight field of src/2_Pydantic.py, every raw
value that is not exactly a float — an integer included — produces a
TYPE_MISMATCH violation for weight rather than being coerced, and validation
returns an error report, so no record is constructed from such an input. -/
theorem c6_strict_weight_rejects_nonfloat (raw : Dict) (v : Value)
    (hl : lookupD raw "weight" = some v) (hv : isFloatV v = false) :
    ∃ rep, validate Patient2 raw = .ok (.error rep) ∧
      Violation.mk "weight" .TYPE_MISMATCH "type mismatch" ∈ rep := by
  have hnf : ∀ m, validateFields Patient2 Patient2.fields raw ≠ .error m := by
    apply validateFields_nofault
    intro fd hfd m
    exact @processField_nohook_nofault Patient2 fd raw rfl rfl m
  obtain ⟨⟨vs, es⟩, hvf⟩ : ∃ p, validateFields Patient2 Patient2.fields raw = .ok p := by
    cases hx : validateFields Patient2 Patient2.fields raw with
    | error m => exact absurd hx (hnf m)
    | ok p => exact ⟨p, rfl⟩
  have hmem : Violation.mk "weight" .TYPE_MISMATCH "type mismatch" ∈ vs := by
    refine validateFields_mem (pf_weight2 hl hv) ?_ hvf _ (by simp)
    simp [Patient2]
  cases vs with
  | nil => simp at hmem
  | cons w ws =>
    refine ⟨w :: ws, ?_, hmem⟩
    unfold validate
    rw [hvf]

/-- The values of src/2_Pydantic.py's `patient_info`, which supplies the
integer 70 for the strict float field weight. -/
def in6w : Dict :=
  [("name", .vStr "Arshnoor"), ("email", .vStr "arsh@gmail.com"),
   ("linkedin_url", .vStr "https://linkedin.com/in/arshnoor"), ("age", .vInt 24),
   ("weight", .vInt 70), ("married", .vBool true),
   ("allergies", .vList [.vStr "pollen", .vStr "dust"]),
   ("contact_details", .vDict [("phone", .vStr "98765432123")])]

/-- Witness for C6 at the concrete input with weight supplied as int 70. -/
theorem c6_strict_weight_rejects_nonfloat_witness :
    lookupD in6w "weight" = some (.vInt 70) ∧ isFloatV (.vInt 70) = false ∧
    ∃ rep, validate Patient2 in6w = .ok (.error rep) ∧
      Violation.mk "weight" .TYPE_MISMATCH "type mismatch" ∈ rep :=
  ⟨rfl, rfl, c6_strict_weight_rejects_nonfloat in6w (.vInt 70) rfl rfl⟩

/-- Splitting a character list always yields at least one part. -/
theorem splitChar_ne_nil (c : Char) (cs : List Char) : splitChar c cs ≠ [] := by
  cases cs with
  | nil => simp [splitChar]
  | cons x xs =>
    unfold splitChar
    split <;> [simp; split <;> simp]

/-- String coercion only ever produces a string. -/
theorem coerce_bStr {st : Bool} {v w : Value}
    (h : coerce st (.base .bStr) v = some w) : ∃ s, w = .vStr s := by
  cases v <;>
    first
      | (simp only [coerce, coerceBase, Option.some.injEq] at h; exact ⟨_, h.symm⟩)
      | simp_all [coerce, coerceBase]

/-- The email hook raises or passes on every string; it never faults. -/
theorem email_validator_nofault (s : String) :
    ∀ m, email_validator (.vStr s) ≠ .fault m := by
  intro m h
  cases hg : (splitChar '@' s.data).getLast? with
  | none => exact splitChar_ne_nil '@' s.data (List.getLast?_eq_none_iff.mp hg)
  | some d =>
    simp only [email_validator, hg] at h
    split at h <;> simp_all

/-- The name field of the field-validator Patient never faults: its only
hook runs after coercion, hence on a string. -/
theorem pf_name3_nofault {raw : Dict} : ∀ m, processField Patient3 nameF3 raw ≠ .error m := by
  intro m h
  unfold processField at h
  split at h
  · split at h <;> simp_all
  · have hb : Patient3.beforeHooks nameF3.name = [] := rfl
    have ha : Patient3.afterHooks nameF3.name = [transform_name] := rfl
    rw [hb, ha] at h
    simp only [runHooks] at h
    split at h <;> try simp_all
    obtain ⟨s, rfl⟩ := coerce_bStr (by assumption)
    split at h <;> simp_all [transform_name]

/-- The email field of the field-validator Patient never faults: its only
hook runs after coercion, hence on a string, where it never faults. -/
theorem pf_email3_nofault {raw : Dict} : ∀ m, processField Patient3 emailF3 raw ≠ .error m := by
  intro m h
  unfold processField at h
  split at h
  · split at h <;> simp_all
  · have hb : Patient3.beforeHooks emailF3.name = [] := rfl
    have ha : Patient3.afterHooks emailF3.name = [email_validator] := rfl
    rw [hb, ha] at h
    simp only [runHooks] at h
    split at h <;> try simp_all
    obtain ⟨s, rfl⟩ := coerce_bStr (by assumption)
    split at h <;> try simp_all
    cases he : email_validator (.vStr s) with
    | ok w => rw [he] at h; simp_all [runHooks]
    | violation m2 => rw [he] at h; simp_all
    | fault m2 => exact email_validator_nofault s m2 he

/-- Whether a value is numeric in Python's chained-comparison sense (ints,
floats, and bools, a Python bool being an int). -/
def isNumericV : Value → Bool
  | .vInt _ => true
  | .vFloat _ => true
  | .vBool _ => true
  | _ => false

/-- The raw age value, when supplied, is numeric. -/
def ageNumeric (raw : Dict) : Bool :=
  match lookupD raw "age" with
  | some v => isNumericV v
  | none => true

/-- The age hook accepts or raises on every numeric value; it only faults on
non-numeric ones. -/
theorem validate_age_nofault {v : Value} (hv : isNumericV v = true) :
    ∀ m, validate_age v ≠ .fault m := by
  intro m h
  cases v <;> simp_all [validate_age, isNumericV] <;> split at h <;> simp_all

/-- The age field of the field-validator Patient never faults on a numeric
(or absent) raw age. -/
theorem pf_age3_nofault {raw : Dict} (hn : ageNumeric raw = true) :
    ∀ m, processField Patient3 ageF3 raw ≠ .error m := by
  intro m h
  unfold processField at h
  have hname : ageF3.name = "age" := rfl
  rw [hname] at h
  cases hl : lookupD raw "age" with
  | none =>
    rw [hl] at h
    rw [show ageF3.defaultVal = none from rfl] at h
    simp at h
  | some rv =>
    rw [hl] at h
    have hb : Patient3.beforeHooks "age" = [validate_age] := rfl
    have ha : Patient3.afterHooks "age" = [] := rfl
    rw [hb, ha] at h
    have hnum : isNumericV rv = true := by unfold ageNumeric at hn; rw [hl] at hn; exact hn
    simp only [runHooks] at h
    cases hva : validate_age rv with
    | ok w =>
      rw [hva] at h
      simp only [runHooks] at h
      split at h <;> try simp_all
      split at h <;> simp_all
    | violation m2 => rw [hva] at h; simp_all
    | fault m2 => exact validate_age_nofault hnum m2 hva

/-- C3 (amended): for every raw input whose age value, when supplied, is
numeric, validation against the Patient schema of src/3_field_validator.py
returns one of exactly two outcomes — a valid record, or a nonempty report
collecting the violations found — and propagates no unhandled exception.
(The unamended claim, over all raw age values, fails: see the counterexample
with age = "twenty".) -/
theorem c3_collects_or_reports_numeric_age (raw : Dict) (hn : ageNumeric raw = true) :
    (∃ r, validate Patient3 raw = .ok (.ok r)) ∨
    (∃ rep, validate Patient3 raw = .ok (.error rep) ∧ rep ≠ []) := by
  have hnf : ∀ m, validateFields Patient3 Patient3.fields raw ≠ .error m := by
    apply validateFields_nofault
    intro fd hfd
    simp [Patient3] at hfd
    rcases hfd with rfl | rfl | rfl | rfl | rfl | rfl | rfl
    · exact pf_name3_nofault
    · exact pf_email3_nofault
    · exact pf_age3_nofault hn
    · exact @processField_nohook_nofault Patient3 weightF3 raw rfl rfl
    · exact @processField_nohook_nofault Patient3 marriedF3 raw rfl rfl
    · exact @processField_nohook_nofault Patient3 allergiesF3 raw rfl rfl
    · exact @processField_nohook_nofault Patient3 contactF3 raw rfl rfl
  obtain ⟨⟨vs, es⟩, hvf⟩ : ∃ p, validateFields Patient3 Patient3.fields raw = .ok p := by
    cases hx : validateFields Patient3 Patient3.fields raw with
    | error m => exact absurd hx (hnf m)
    | ok p => exact ⟨p, rfl⟩
  cases vs with
  | nil =>
    left
    exact ⟨es, by unfold validate; rw [hvf]; rfl⟩
  | cons w ws =>
    right
    exact ⟨w :: ws, by unfold validate; rw [hvf], by simp⟩

/-- Witness for the amended C3 at a concrete numeric-age input. -/
theorem c3_collects_or_reports_numeric_age_witness :
    ageNumeric cgood = true ∧
    ((∃ r, validate Patient3 cgood = .ok (.ok r)) ∨
     (∃ rep, validate Patient3 cgood = .ok (.error rep) ∧ rep ≠ [])) :=
  ⟨rfl, c3_collects_or_reports_numeric_age cgood rfl⟩

/-- A violation-free field pass validates every field individually. -/
theorem validateFields_ok_nil {s : Schema} {raw : Dict} :
    ∀ {fds : List FieldDesc} {es : Dict},
      validateFields s fds raw = .ok ([], es) →
      List.Forall₂ (fun fd e => processField s fd raw = .ok (.ok e)) fds es := by
  intro fds
  induction fds with
  | nil =>
    intro es h
    simp only [validateFields, Except.ok.injEq, Prod.mk.injEq] at h
    rw [← h.2]
    exact List.Forall₂.nil
  | cons fd rest ih =>
    intro es h
    unfold validateFields at h
    cases hg : processField s fd raw with
    | error m => rw [hg] at h; simp at h
    | ok inner =>
      rw [hg] at h
      cases inner with
      | ok e =>
        cases hrest : validateFields s rest raw with
        | error m => rw [hrest] at h; simp at h
        | ok q =>
          obtain ⟨vs1, es1⟩ := q
          rw [hrest] at h
          simp only [Except.ok.injEq, Prod.mk.injEq] at h
          obtain ⟨h1, h2⟩ := h
          subst h1
          rw [← h2]
          exact List.Forall₂.cons hg (ih hrest)
      | error vs0 =>
        cases hrest : validateFields s rest raw with
        | error m => rw [hrest] at h; simp at h
        | ok q =>
          obtain ⟨vs1, es1⟩ := q
          rw [hrest] at h
          simp only [Except.ok.injEq, Prod.mk.injEq] at h
          exact absurd (List.append_eq_nil.mp h.1).1 (processField_error_ne_nil hg)

/-- A field that validated with no after hooks and no default carries its
own name and a value obtained by coercion, which passed the constraints. -/
theorem processField_ok_shape {s : Schema} {fd : FieldDesc} {raw : Dict}
    {n : String} {v : Value} (ha : s.afterHooks fd.name = [])
    (hd : fd.defaultVal = none)
    (h : processField s fd raw = .ok (.ok (n, v))) :
    n = fd.name ∧ ∃ w, coerce fd.strict fd.ftype w = some v ∧ checkConstraints fd v = [] := by
  unfold processField at h
  split at h
  · rw [hd] at h; simp at h
  · split at h
    · simp at h
    · simp at h
    · rename_i rv2 hhooks
      split at h
      · simp at h
      · rename_i cv hc
        split at h
        · rename_i hcc
          rw [ha] at h
          simp only [runHooks, Except.ok.injEq, Prod.mk.injEq] at h
          obtain ⟨h1, h2⟩ := h
          subst h2
          exact ⟨h1.symm, rv2, hc, hcc⟩
        · simp at h

/-- Base string coercion only ever produces a string. -/
theorem coerceBase_bStr {st : Bool} {u w : Value}
    (h : coerceBase st .bStr u = some w) : ∃ s, w = .vStr s := by
  cases u <;>
    first
      | (simp only [coerceBase, Option.some.injEq] at h; exact ⟨_, h.symm⟩)
      | simp_all [coerceBase]

/-- Integer coercion only ever produces an int. -/
theorem coerce_bInt {st : Bool} {v w : Value}
    (h : coerce st (.base .bInt) v = some w) : ∃ n, w = .vInt n := by
  cases v with
  | vInt n => simp only [coerce, coerceBase, Option.some.injEq] at h; exact ⟨n, h.symm⟩
  | vStr s =>
    simp only [coerce, coerceBase] at h
    split at h
    · simp at h
    · cases hp : parseIntChars s.data with
      | none => rw [hp] at h; simp at h
      | some k =>
        rw [hp] at h
        simp at h
        exact ⟨k, h.symm⟩
  | vFloat q => simp [coerce, coerceBase] at h
  | vBool b => simp [coerce, coerceBase] at h
  | vNone => simp [coerce, coerceBase] at h
  | vList xs => simp [coerce, coerceBase] at h
  | vDict es => simp [coerce, coerceBase] at h

/-- Coercion into the Address nested schema always yields a city/state/pin
dictionary of strings in declaration order. -/
theorem coerce_addr {st : Bool} {w v : Value}
    (h : coerce st (.nested addressFields) w = some v) :
    ∃ c s2 p, v = .vDict [("city", .vStr c), ("state", .vStr s2), ("pin", .vStr p)] := by
  cases w <;> simp only [coerce] at h <;> try simp at h
  rename_i es
  simp only [addressFields, mapOpt] at h
  cases hc1 : lookupD es "city" with
  | none => simp [hc1] at h
  | some u1 =>
    cases hb1 : coerceBase st .bStr u1 with
    | none => simp [hc1, hb1] at h
    | some w1 =>
      cases hc2 : lookupD es "state" with
      | none => simp [hc1, hb1, hc2] at h
      | some u2 =>
        cases hb2 : coerceBase st .bStr u2 with
        | none => simp [hc1, hb1, hc2, hb2] at h
        | some w2 =>
          cases hc3 : lookupD es "pin" with
          | none => simp [hc1, hb1, hc2, hb2, hc3] at h
          | some u3 =>
            cases hb3 : coerceBase st .bStr u3 with
            | none => simp [hc1, hb1, hc2, hb2, hc3, hb3] at h
            | some w3 =>
              obtain ⟨c, rfl⟩ := coerceBase_bStr hb1
              obtain ⟨s2, rfl⟩ := coerceBase_bStr hb2
              obtain ⟨p, rfl⟩ := coerceBase_bStr hb3
              simp [hc1, hb1, hc2, hb2, hc3, hb3] at h
              exact ⟨c, s2, p, h.symm⟩

/-- C7: round-trip stability — for every raw input that validates
successfully against the serialization-demo Patient schema, serializing the
resulting record with no filters yields exactly the record's own entries,
and re-validating that serialized output succeeds and reconstructs the
identical record. -/
theorem c7_roundtrip_stability (raw r : Dict)
    (h : validate Patient6 raw = .ok (.ok r)) :
    model_dump Patient6 r none none = .ok (.vDict r) ∧
    validate Patient6 r = .ok (.ok r) := by
  unfold validate at h
  cases hvf : validateFields Patient6 Patient6.fields raw with
  | error m => rw [hvf] at h; simp at h
  | ok q =>
    obtain ⟨vs, es⟩ := q
    rw [hvf] at h
    cases vs with
    | cons w ws => simp at h
    | nil =>
      have h2 : runModelHooks Patient6.modelHooks es [] = .ok (.ok r) := h
      have h3 : es = r := by simp [runModelHooks] at h2; exact h2
      subst h3
      have hF := validateFields_ok_nil hvf
      have hfields : Patient6.fields =
        [⟨"name", .base .bStr, none, none, none, none, none, false⟩,
         ⟨"gender", .base .bStr, none, none, none, none, none, false⟩,
         ⟨"age", .base .bInt, none, none, none, none, none, false⟩,
         ⟨"address", .nested addressFields, none, none, none, none, none, false⟩] := rfl
      rw [hfields] at hF
      rw [List.forall₂_cons_left_iff] at hF
      obtain ⟨⟨n1, v1⟩, es1, h1, hF, rfl⟩ := hF
      rw [List.forall₂_cons_left_iff] at hF
      obtain ⟨⟨n2, v2⟩, es2, h2x, hF, rfl⟩ := hF
      rw [List.forall₂_cons_left_iff] at hF
      obtain ⟨⟨n3, v3⟩, es3, h3x, hF, rfl⟩ := hF
      rw [List.forall₂_cons_left_iff] at hF
      obtain ⟨⟨n4, v4⟩, es4, h4x, hF, rfl⟩ := hF
      rw [List.forall₂_nil_left_iff] at hF
      subst hF
      obtain ⟨hn1, w1, hco1, _⟩ := processField_ok_shape rfl rfl h1
      obtain ⟨hn2, w2, hco2, _⟩ := processField_ok_shape rfl rfl h2x
      obtain ⟨hn3, w3, hco3, _⟩ := processField_ok_shape rfl rfl h3x
      obtain ⟨hn4, w4, hco4, _⟩ := processField_ok_shape rfl rfl h4x
      obtain ⟨a, rfl⟩ := coerce_bStr hco1
      obtain ⟨b, rfl⟩ := coerce_bStr hco2
      obtain ⟨n, rfl⟩ := coerce_bInt hco3
      obtain ⟨c, s2, p, rfl⟩ := coerce_addr hco4
      subst hn1; subst hn2; subst hn3; subst hn4
      exact ⟨rfl, rfl⟩

/-- Witness for C7 at src/6_serialization.py's concrete patient_dict. -/
theorem c7_roundtrip_stability_witness :
    validate Patient6 patientDict6 = .ok (.ok patientDict6) ∧
    (model_dump Patient6 patientDict6 none none = .ok (.vDict patientDict6) ∧
     validate Patient6 patientDict6 = .ok (.ok patientDict6)) :=
  ⟨rfl, c7_roundtrip_stability patientDict6 patientDict6 rfl⟩

/-- Witness for C9 at the claim's own example filters. -/
theorem c9_filter_conflict_witness :
    model_dump Patient6 patientDict6 (some ["name"]) (some [.whole "age"]) =
      .error .FILTER_CONFLICT :=
  c9_filter_conflict patientDict6 ["name"] [.whole "age"]
